import Mathlib

/-!
Verification of the association-matrix synthesis engine (`src/app.py`).

The engine's two core functions are embedded shallowly:

* `create_sparse_matrix df kupac_col artikl_col` — builds the sparse
  representation: sorted category universes for both selected columns,
  the deduplicated pair rows (`unique_pairs`), and the scalar stats.
* `generate_excel_chunked sparse …` — derives the per-label counts and
  top-10 tables, composes the summary values, and emits the matrix sheet
  chunk by chunk (`all_chunks` / `matrix_df` mirror the source's loop and
  `pd.concat`).

A raw cell of the selected DataFrame columns is modelled by `RawVal`:
a string, an integer, or null (pandas `NaN`).  The pandas primitives the
source uses are modelled one definition each (`categories` for
`pd.Categorical(col).categories`, `dedupKeepFirst` for
`DataFrame.drop_duplicates`, `valueCounts` for `Series.value_counts`),
each faithful to the documented pandas semantics on such columns.
The spreadsheet sink (openpyxl serialization) is modelled at the sink
boundary as a header plus a sequence of rows, the boundary the
specification itself draws.
-/

namespace KupacArtikl

/-- Raw scalar value of a selected column cell: a string, an integer
identifier, or a missing value (pandas `NaN`). -/
inductive RawVal where
  | str (s : String)
  | int (n : Int)
  | null
deriving DecidableEq, Repr

/-- Lexicographic order on character lists by code point, the order Python
uses to compare `str` values. -/
def charListLe : List Char → List Char → Bool
  | [], _ => true
  | _ :: _, [] => false
  | c :: cs, d :: ds =>
      if c.toNat < d.toNat then true
      else if d.toNat < c.toNat then false
      else charListLe cs ds

/-- Python string comparison `s <= t` (code-point lexicographic). -/
def strLe (s t : String) : Bool :=
  charListLe s.data t.data

/-- Sort order used by pandas when it sorts the categories of an object
column: integers compare by value, strings lexicographically, and on a
mixed column numbers come before strings (pandas `safe_sort` falls back to
its mixed-type order, numbers first).  `null` never occurs in a sorted
category list; it is placed first so that the order stays total. -/
def RawVal.le : RawVal → RawVal → Bool
  | .null, _ => true
  | .int _, .null => false
  | .str _, .null => false
  | .int m, .int n => decide (m ≤ n)
  | .int _, .str _ => true
  | .str _, .int _ => false
  | .str s, .str t => strLe s t

/-- Drop the missing values of a column, as `pd.Categorical` (for the
category list) and `Series.value_counts` (with its default `dropna=True`)
both do. -/
def stripNull (xs : List RawVal) : List RawVal :=
  xs.filter (fun v => v ≠ RawVal.null)

/-- Deduplication keeping the first occurrence of each element, in input
order: the behaviour of `DataFrame.drop_duplicates` on the projected
two-column frame (pandas treats `NaN` as equal to `NaN` here, as does
`DecidableEq RawVal` for `null`).  Keeping an element and then removing
its later duplicates from the recursively deduplicated tail retains
exactly the first occurrences, in order. -/
def dedupKeepFirst {α : Type} [DecidableEq α] : List α → List α
  | [] => []
  | x :: xs => x :: (dedupKeepFirst xs).filter (fun y => y ≠ x)

/-- Insert into a `RawVal.le`-sorted list. -/
def insertSorted (x : RawVal) : List RawVal → List RawVal
  | [] => [x]
  | y :: ys => if RawVal.le x y then x :: y :: ys else y :: insertSorted x ys

/-- Insertion sort by `RawVal.le`; models the sort pandas applies to the
categories of a column. -/
def sortVals : List RawVal → List RawVal
  | [] => []
  | x :: xs => insertSorted x (sortVals xs)

/-- `pd.Categorical(col).categories`: the sorted distinct non-null values
of a column. -/
def categories (xs : List RawVal) : List RawVal :=
  sortVals (dedupKeepFirst (stripNull xs))

/-- The dictionary returned by `create_sparse_matrix` (src/app.py lines
25-55). -/
structure SparseData where
  kupci : List RawVal
  artikli : List RawVal
  kupacToIdx : List (RawVal × Nat)
  artiklToIdx : List (RawVal × Nat)
  uniquePairs : List (RawVal × RawVal)
  numKupaca : Nat
  numArtikala : Nat
  trueCount : Nat
deriving DecidableEq, Repr

/-- `create_sparse_matrix(df, kupac_col, artikl_col)` (src/app.py lines
25-55).  `df` is the record sequence already projected to the two selected
columns, so a record is one `(kupac, artikl)` value pair.  The source
builds `pd.Categorical` universes of each raw column, the index mappings,
and `df[[kupac_col, artikl_col]].drop_duplicates()`; nothing in it drops
rows with a missing value — only the category lists exclude `NaN`. -/
def create_sparse_matrix (df : List (RawVal × RawVal)) : SparseData :=
  let kupci := categories (df.map (fun r => r.1))
  let artikli := categories (df.map (fun r => r.2))
  let uniquePairs := dedupKeepFirst df
  { kupci := kupci
    artikli := artikli
    kupacToIdx := kupci.enum.map (fun p => (p.2, p.1))
    artiklToIdx := artikli.enum.map (fun p => (p.2, p.1))
    uniquePairs := uniquePairs
    numKupaca := kupci.length
    numArtikala := artikli.length
    trueCount := uniquePairs.length }

/-- Stable insertion step of the descending-by-count sort inside
`Series.value_counts`: an element moves past the entries with a strictly
larger count and stops in front of the first entry whose count is not
larger, so entries with equal counts keep their relative order. -/
def insertDesc (p : RawVal × Nat) : List (RawVal × Nat) → List (RawVal × Nat)
  | [] => [p]
  | q :: qs => if q.2 > p.2 then q :: insertDesc p qs else p :: q :: qs

/-- Stable sort by count descending. -/
def sortDesc : List (RawVal × Nat) → List (RawVal × Nat)
  | [] => []
  | p :: ps => insertDesc p (sortDesc ps)

/-- `Series.value_counts()`: drop the missing values, count the occurrences
of each distinct value (keys in first-appearance order), and sort by count
descending.  The source applies no secondary key, so entries with equal
counts stay in first-appearance order (stable sort); in particular they are
not reordered by label. -/
def valueCounts (xs : List RawVal) : List (RawVal × Nat) :=
  let nonNull := stripNull xs
  sortDesc ((dedupKeepFirst nonNull).map (fun k => (k, nonNull.count k)))

/-- Fuel-indexed slicing loop: each step takes the slice `l[:w]` and
recurses on `l[w:]` with `w = max cs 1 ≥ 1`, so a fuel of `l.length`
always suffices. -/
def sliceChunksFuel {α : Type} (cs : Nat) : Nat → List α → List (List α)
  | 0, _ => []
  | _, [] => []
  | fuel + 1, x :: xs =>
      ((x :: xs).take (max cs 1)) ::
        sliceChunksFuel cs fuel ((x :: xs).drop (max cs 1))

/-- Slices `l[i:i+cs]` for `i = 0, cs, 2*cs, …`, mirroring the chunk loop
`for i in range(0, num_kupaca, chunk_size)` of the source.  The source
always calls it with `chunk_size = 500`; `max cs 1` totalizes the slice
width at the never-used width `0`. -/
def sliceChunks {α : Type} (cs : Nat) (l : List α) : List (List α) :=
  sliceChunksFuel cs l.length l

/-- One emitted matrix row: `[kupac] + [ (kupac, a) in pair_set for a in
artikli ]` (src/app.py lines 130-131), as the labelled list of its boolean
cells. -/
def buildRow (pairSet : List (RawVal × RawVal)) (artikli : List RawVal)
    (kupac : RawVal) : RawVal × List Bool :=
  (kupac, artikli.map (fun a => decide ((kupac, a) ∈ pairSet)))

/-- The `all_chunks` list of the source (src/app.py lines 122-139): every
chunk's fully built rows, all retained at once. -/
def all_chunks (cs : Nat) (kupci artikli : List RawVal)
    (pairSet : List (RawVal × RawVal)) : List (List (RawVal × List Bool)) :=
  (sliceChunks cs kupci).map (fun chunk => chunk.map (buildRow pairSet artikli))

/-- `matrix_df = pd.concat(all_chunks)` (src/app.py line 142): the complete
matrix as one structure, one row per kupac label. -/
def matrix_df (cs : Nat) (kupci artikli : List RawVal)
    (pairSet : List (RawVal × RawVal)) : List (RawVal × List Bool) :=
  (all_chunks cs kupci artikli pairSet).flatten

/-- The runtime error the source can raise while composing the summary:
`100*true_count/total_celija` divides by zero when a universe is empty.
No other error class (in particular no `EmptyInputError`) exists in the
source. -/
inductive PyErr where
  | zeroDivision
deriving DecidableEq, Repr

/-- Values carried by the Summary sheet rows (src/app.py lines 88-115).
The f-string presentation (thousands separators, `%` sign, decimal
rounding) is sink-side formatting; the fields hold the exact values the
source formats.  `falseCount` is a Python `int` subtraction, hence `Int`.
`fillPct` is `100*true_count/total_celija` as an exact rational. -/
structure SummarySheet where
  datum : String
  dfLen : Nat
  numKupaca : Nat
  numArtikala : Nat
  totalCelija : Nat
  trueCount : Nat
  falseCount : Int
  fillPct : ℚ
  prosjekArtikala : ℚ
  prosjekKupaca : ℚ
deriving DecidableEq, Repr

/-- The artifact produced by `generate_excel_chunked`: the Summary sheet
values with the two top-10 tables, the Matrica sheet (header and data
rows, at the sink boundary), and the per-label count series the function
also returns. -/
structure Output where
  summary : SummarySheet
  topKupci : List (RawVal × Nat)
  topArtikli : List (RawVal × Nat)
  matHeaderName : String
  matHeaderCols : List RawVal
  matrixRows : List (RawVal × List Bool)
  kupciCounts : List (RawVal × Nat)
  artikliCounts : List (RawVal × Nat)
deriving DecidableEq, Repr

/-- `generate_excel_chunked(sparse_data, kupac_col, artikl_col, df_len,
chunk_size=500)` (src/app.py lines 58-149).  `nowStr` stands for the
external clock read `datetime.now().strftime(...)`.  The pair set, the
value counts and the top-10 heads are computed first; composing the
summary then divides by `total_celija` and raises `ZeroDivisionError`
when that product is zero, before any sheet row is written; otherwise the
Matrica rows are built chunk by chunk, concatenated into `matrix_df` and
emitted after the Summary sheet. -/
def generate_excel_chunked (sparse : SparseData) (kupacCol artiklCol : String)
    (dfLen : Nat) (nowStr : String) (chunkSize : Nat) : Except PyErr Output :=
  let pairSet := sparse.uniquePairs
  let kupciCounts := valueCounts (sparse.uniquePairs.map (fun r => r.1))
  let artikliCounts := valueCounts (sparse.uniquePairs.map (fun r => r.2))
  let topKupci := kupciCounts.take 10
  let topArtikli := artikliCounts.take 10
  let totalCelija := sparse.numKupaca * sparse.numArtikala
  if totalCelija = 0 then Except.error PyErr.zeroDivision
  else
    Except.ok
      { summary :=
          { datum := nowStr
            dfLen := dfLen
            numKupaca := sparse.numKupaca
            numArtikala := sparse.numArtikala
            totalCelija := totalCelija
            trueCount := sparse.trueCount
            falseCount := (totalCelija : Int) - (sparse.trueCount : Int)
            fillPct := 100 * (sparse.trueCount : ℚ) / (totalCelija : ℚ)
            prosjekArtikala :=
              ((kupciCounts.map (fun p => p.2)).sum : ℚ) / (kupciCounts.length : ℚ)
            prosjekKupaca :=
              ((artikliCounts.map (fun p => p.2)).sum : ℚ) / (artikliCounts.length : ℚ) }
        topKupci := topKupci
        topArtikli := topArtikli
        matHeaderName := kupacCol
        matHeaderCols := sparse.artikli
        matrixRows := matrix_df chunkSize sparse.kupci sparse.artikli pairSet
        kupciCounts := kupciCounts
        artikliCounts := artikliCounts }

/-! ## Observers and spec-side definitions

The definitions below do not embed source code: they are measurement
functions over the embedded data, plus definitions written from the
specification's words (each marked so) used to compare the code against
the spec's claims. -/

/-- Modelled from the spec: a valid record is one in which both selected
fields are non-null ("a record is excluded if either field is missing"). -/
def specValidRecord (r : RawVal × RawVal) : Bool :=
  decide (r.1 ≠ RawVal.null) && decide (r.2 ≠ RawVal.null)

/-- Modelled from the spec: the PairSet after cleaning — the distinct
(A, B) pairs of the records whose two fields are both non-null. -/
def specPairSet (df : List (RawVal × RawVal)) : List (RawVal × RawVal) :=
  dedupKeepFirst (df.filter specValidRecord)

/-- Modelled from the spec: universeA as the sorted distinct projection of
PairSet's first components. -/
def specUniverseA (ps : List (RawVal × RawVal)) : List RawVal :=
  sortVals (dedupKeepFirst (ps.map (fun r => r.1)))

/-- Modelled from the spec: universeB as the sorted distinct projection of
PairSet's second components. -/
def specUniverseB (ps : List (RawVal × RawVal)) : List RawVal :=
  sortVals (dedupKeepFirst (ps.map (fun r => r.2)))

/-- Modelled from the spec: the ranking order required of the top-10
tables — count descending, ties broken by ascending canonical label. -/
def specRankLe (p q : RawVal × Nat) : Prop :=
  q.2 < p.2 ∨ (p.2 = q.2 ∧ RawVal.le p.1 q.1 = true)

instance (p q : RawVal × Nat) : Decidable (specRankLe p q) := by
  unfold specRankLe
  infer_instance

/-- Number of `true` cells across a list of emitted matrix rows. -/
def countTrue (rows : List (RawVal × List Bool)) : Nat :=
  (rows.map (fun r => r.2.count true)).sum

/-- Number of distinct B-side partner labels of the label `k` among the
pair rows. -/
def distinctPartnerCountA (up : List (RawVal × RawVal)) (k : RawVal) : Nat :=
  (((up.filter (fun r => decide (r.1 = k))).map (fun r => r.2)).dedup).length

/-- Number of distinct A-side partner labels of the label `k` among the
pair rows. -/
def distinctPartnerCountB (up : List (RawVal × RawVal)) (k : RawVal) : Nat :=
  (((up.filter (fun r => decide (r.2 = k))).map (fun r => r.1)).dedup).length

/-! ## State-threaded embedding of the two engine functions

Each pandas call the source makes on the caller's data is rendered as an
operation that receives the current object state and returns the state
after the call together with the call's result.  Per pandas semantics,
every call the source applies to the input frame or to the stored
`unique_pairs` frame — column selection, `pd.Categorical` construction,
`drop_duplicates`, `zip` iteration, `value_counts`, `head` — is
non-mutating and returns freshly allocated objects; the one mutating call
in the source, `matrix_df.set_index(kupac_col, inplace=True)`, is applied
to the locally created `matrix_df` only. -/

/-- `pd.Categorical(df[sel]).categories`: reads the frame, returns a fresh
sorted category list; the frame after the call is unchanged. -/
def pdCategoricalCategories_st (df : List (RawVal × RawVal))
    (sel : RawVal × RawVal → RawVal) :
    List (RawVal × RawVal) × List RawVal :=
  (df, categories (df.map sel))

/-- `df[[kupac_col, artikl_col]].drop_duplicates()`: reads the frame,
returns a fresh deduplicated frame. -/
def dropDuplicates_st (df : List (RawVal × RawVal)) :
    List (RawVal × RawVal) × List (RawVal × RawVal) :=
  (df, dedupKeepFirst df)

/-- `set(zip(unique_pairs[c1], unique_pairs[c2]))`: reads the stored pair
frame, returns a fresh pair set. -/
def setOfZip_st (up : List (RawVal × RawVal)) :
    List (RawVal × RawVal) × List (RawVal × RawVal) :=
  (up, up)

/-- `unique_pairs[sel].value_counts()`: reads the stored pair frame,
returns a fresh count series. -/
def seriesValueCounts_st (up : List (RawVal × RawVal))
    (sel : RawVal × RawVal → RawVal) :
    List (RawVal × RawVal) × List (RawVal × Nat) :=
  (up, valueCounts (up.map sel))

/-- `frame.set_index(col, inplace=True)`: the only mutating call of the
source; it rekeys its receiver in place and returns `None`.  The receiver
is the locally allocated `matrix_df`, whose embedded representation is
already keyed by the label column, so the mutated state carries the same
rows. -/
def setIndexInplace_st (frame : List (RawVal × List Bool)) :
    List (RawVal × List Bool) × Unit :=
  (frame, ())

/-- State-threaded `create_sparse_matrix`: the input frame is threaded
through every pandas call the source applies to it, and the frame state
after the last call is returned next to the result dictionary. -/
def create_sparse_matrix_st (df : List (RawVal × RawVal)) :
    List (RawVal × RawVal) × SparseData :=
  let s1 := pdCategoricalCategories_st df (fun r => r.1)
  let kupci := s1.2
  let s2 := pdCategoricalCategories_st s1.1 (fun r => r.2)
  let artikli := s2.2
  let s3 := dropDuplicates_st s2.1
  let uniquePairs := s3.2
  (s3.1,
    { kupci := kupci
      artikli := artikli
      kupacToIdx := kupci.enum.map (fun p => (p.2, p.1))
      artiklToIdx := artikli.enum.map (fun p => (p.2, p.1))
      uniquePairs := uniquePairs
      numKupaca := kupci.length
      numArtikala := artikli.length
      trueCount := uniquePairs.length })

/-- State-threaded `generate_excel_chunked`: the sparse-data dictionary is
threaded through every call the source applies to its stored frames; the
local `matrix_df` receives the one in-place mutation. -/
def generate_excel_chunked_st (sparse : SparseData) (kupacCol artiklCol : String)
    (dfLen : Nat) (nowStr : String) (chunkSize : Nat) :
    SparseData × Except PyErr Output :=
  let z := setOfZip_st sparse.uniquePairs
  let pairSet := z.2
  let v1 := seriesValueCounts_st z.1 (fun r => r.1)
  let kupciCounts := v1.2
  let v2 := seriesValueCounts_st v1.1 (fun r => r.2)
  let artikliCounts := v2.2
  let sparse1 := { sparse with uniquePairs := v2.1 }
  let topKupci := kupciCounts.take 10
  let topArtikli := artikliCounts.take 10
  let totalCelija := sparse1.numKupaca * sparse1.numArtikala
  if totalCelija = 0 then (sparse1, Except.error PyErr.zeroDivision)
  else
    let frame0 := matrix_df chunkSize sparse1.kupci sparse1.artikli pairSet
    let m := setIndexInplace_st frame0
    (sparse1,
      Except.ok
        { summary :=
            { datum := nowStr
              dfLen := dfLen
              numKupaca := sparse1.numKupaca
              numArtikala := sparse1.numArtikala
              totalCelija := totalCelija
              trueCount := sparse1.trueCount
              falseCount := (totalCelija : Int) - (sparse1.trueCount : Int)
              fillPct := 100 * (sparse1.trueCount : ℚ) / (totalCelija : ℚ)
              prosjekArtikala :=
                ((kupciCounts.map (fun p => p.2)).sum : ℚ) / (kupciCounts.length : ℚ)
              prosjekKupaca :=
                ((artikliCounts.map (fun p => p.2)).sum : ℚ) / (artikliCounts.length : ℚ) }
          topKupci := topKupci
          topArtikli := topArtikli
          matHeaderName := kupacCol
          matHeaderCols := sparse1.artikli
          matrixRows := m.1
          kupciCounts := kupciCounts
          artikliCounts := artikliCounts })

/-! ## Lemmas about the embedded primitives -/

theorem mem_dedupKeepFirst {α : Type} [DecidableEq α] {a : α} :
    ∀ {l : List α}, a ∈ dedupKeepFirst l ↔ a ∈ l
  | [] => Iff.rfl
  | x :: xs => by
      by_cases hax : a = x
      · subst hax
        simp [dedupKeepFirst]
      · simp only [dedupKeepFirst, List.mem_cons, List.mem_filter, hax, false_or,
          ne_eq, decide_not, Bool.not_eq_eq_eq_not, Bool.not_false, decide_eq_true_eq]
        rw [mem_dedupKeepFirst (l := xs)]
        simp [hax]

theorem nodup_dedupKeepFirst {α : Type} [DecidableEq α] :
    ∀ (l : List α), (dedupKeepFirst l).Nodup
  | [] => List.nodup_nil
  | x :: xs => by
      simp only [dedupKeepFirst, List.nodup_cons]
      refine ⟨fun hmem => ?_, List.Nodup.filter _ (nodup_dedupKeepFirst xs)⟩
      rcases List.mem_filter.mp hmem with ⟨_, hne⟩
      simp at hne

theorem sum_indicator_of_nodup {α : Type} [DecidableEq α] (x : α) :
    ∀ (keys : List α), keys.Nodup → x ∈ keys →
      (keys.map (fun k => if k = x then 1 else 0)).sum = 1 := by
  intro keys
  induction keys with
  | nil => intro _ h; cases h
  | cons y ks ih =>
      intro hnd hmem
      rcases List.nodup_cons.mp hnd with ⟨hy, hks⟩
      by_cases hyx : y = x
      · subst hyx
        have hzero : (ks.map (fun k => if k = y then 1 else 0)).sum = 0 := by
          rw [List.sum_eq_zero]
          intro n hn
          rcases List.mem_map.mp hn with ⟨k, hk, rfl⟩
          have : ¬ k = y := fun h => hy (h ▸ hk)
          simp [this]
        simp [hzero]
      · have hx : x ∈ ks := by
          rcases List.mem_cons.mp hmem with h | h
          · exact absurd h.symm hyx
          · exact h
        simp [hyx, ih hks hx]

theorem sum_counts_of_cover {α : Type} [DecidableEq α] :
    ∀ (xs keys : List α), keys.Nodup → (∀ a ∈ xs, a ∈ keys) →
      (keys.map (fun k => xs.count k)).sum = xs.length := by
  intro xs
  induction xs with
  | nil => intro keys _ _; simp
  | cons x xs ih =>
      intro keys hnd hcov
      have hx : x ∈ keys := hcov x (List.mem_cons_self x xs)
      have hxs : ∀ a ∈ xs, a ∈ keys := fun a ha => hcov a (List.mem_cons_of_mem x ha)
      have hcount : ∀ k ∈ keys, (x :: xs).count k = xs.count k + if k = x then 1 else 0 := by
        intro k _
        rw [List.count_cons]
        by_cases hkx : k = x
        · simp [hkx]
        · have hxk : ¬ x = k := fun h => hkx h.symm
          simp [hkx, hxk]
      rw [List.map_congr_left hcount, List.sum_map_add, ih keys hnd hxs,
        sum_indicator_of_nodup x keys hnd hx, List.length_cons]

theorem sum_counts_dedupKeepFirst {α : Type} [DecidableEq α] (xs : List α) :
    ((dedupKeepFirst xs).map (fun k => xs.count k)).sum = xs.length :=
  sum_counts_of_cover xs (dedupKeepFirst xs) (nodup_dedupKeepFirst xs)
    (fun _ ha => mem_dedupKeepFirst.mpr ha)

theorem insertDesc_perm (p : RawVal × Nat) :
    ∀ (l : List (RawVal × Nat)), (insertDesc p l).Perm (p :: l)
  | [] => List.Perm.refl _
  | q :: qs => by
      unfold insertDesc
      by_cases h : q.2 > p.2
      · simp only [h, if_true]
        exact ((insertDesc_perm p qs).cons q).trans (List.Perm.swap p q qs)
      · simp [h]

theorem sortDesc_perm : ∀ (l : List (RawVal × Nat)), (sortDesc l).Perm l
  | [] => List.Perm.refl _
  | p :: ps =>
      (insertDesc_perm p (sortDesc ps)).trans ((sortDesc_perm ps).cons p)

theorem chain'_insertDesc (p : RawVal × Nat) :
    ∀ (l : List (RawVal × Nat)),
      List.Chain' (fun a b : RawVal × Nat => b.2 ≤ a.2) l →
      List.Chain' (fun a b : RawVal × Nat => b.2 ≤ a.2) (insertDesc p l)
  | [], _ => List.chain'_singleton p
  | q :: qs, h => by
      unfold insertDesc
      by_cases hq : q.2 > p.2
      · simp only [hq, if_true]
        have htail := (List.chain'_cons'.mp h).2
        have hhead := (List.chain'_cons'.mp h).1
        refine List.chain'_cons'.mpr ⟨?_, chain'_insertDesc p qs htail⟩
        intro y hy
        rcases qs with _ | ⟨q', qs'⟩
        · simp only [insertDesc, Option.mem_def, List.head?_cons, Option.some.injEq] at hy
          subst hy
          omega
        · unfold insertDesc at hy
          by_cases hq' : q'.2 > p.2
          · simp only [hq', if_true, List.head?_cons, Option.mem_def, Option.some.injEq] at hy
            subst hy
            exact hhead q' rfl
          · simp only [hq', if_false, List.head?_cons, Option.mem_def, Option.some.injEq] at hy
            subst hy
            omega
      · simp only [hq, if_false]
        refine List.chain'_cons'.mpr ⟨?_, h⟩
        intro y hy
        simp only [List.head?_cons, Option.mem_def, Option.some.injEq] at hy
        subst hy
        omega

theorem chain'_sortDesc :
    ∀ (l : List (RawVal × Nat)),
      List.Chain' (fun a b : RawVal × Nat => b.2 ≤ a.2) (sortDesc l)
  | [] => List.chain'_nil
  | p :: ps => chain'_insertDesc p (sortDesc ps) (chain'_sortDesc ps)

theorem charListLe_total : ∀ (s t : List Char),
    charListLe s t = true ∨ charListLe t s = true
  | [], _ => Or.inl rfl
  | _ :: _, [] => Or.inr rfl
  | c :: cs, d :: ds => by
      unfold charListLe
      rcases Nat.lt_trichotomy c.toNat d.toNat with h | h | h
      · left
        simp [h]
      · have h1 : ¬ c.toNat < d.toNat := by omega
        have h2 : ¬ d.toNat < c.toNat := by omega
        rcases charListLe_total cs ds with hcd | hdc
        · left
          simp [h1, h2, hcd]
        · right
          simp [h1, h2, hdc]
      · right
        simp [h]

theorem RawVal.le_total (a b : RawVal) : RawVal.le a b = true ∨ RawVal.le b a = true := by
  cases a <;> cases b <;> simp [RawVal.le] <;> first
    | omega
    | exact charListLe_total _ _

theorem insertSorted_perm (x : RawVal) :
    ∀ (l : List RawVal), (insertSorted x l).Perm (x :: l)
  | [] => List.Perm.refl _
  | y :: ys => by
      unfold insertSorted
      by_cases h : RawVal.le x y
      · simp [h]
      · simp only [h, if_false]
        exact ((insertSorted_perm x ys).cons y).trans (List.Perm.swap x y ys)

theorem sortVals_perm : ∀ (l : List RawVal), (sortVals l).Perm l
  | [] => List.Perm.refl _
  | x :: xs =>
      (insertSorted_perm x (sortVals xs)).trans ((sortVals_perm xs).cons x)

theorem chain'_insertSorted (x : RawVal) :
    ∀ (l : List RawVal),
      List.Chain' (fun a b => RawVal.le a b = true) l →
      List.Chain' (fun a b => RawVal.le a b = true) (insertSorted x l)
  | [], _ => List.chain'_singleton x
  | y :: ys, h => by
      unfold insertSorted
      by_cases hxy : RawVal.le x y
      · simp only [hxy, if_true]
        exact List.chain'_cons.mpr ⟨hxy, h⟩
      · simp only [hxy, if_false]
        have hyx : RawVal.le y x = true := by
          rcases RawVal.le_total x y with h1 | h1
          · exact absurd h1 hxy
          · exact h1
        have htail := (List.chain'_cons'.mp h).2
        have hhead := (List.chain'_cons'.mp h).1
        refine List.chain'_cons'.mpr ⟨?_, chain'_insertSorted x ys htail⟩
        intro z hz
        rcases ys with _ | ⟨y', ys'⟩
        · simp only [insertSorted, Option.mem_def, List.head?_cons, Option.some.injEq] at hz
          subst hz
          exact hyx
        · unfold insertSorted at hz
          by_cases hxy' : RawVal.le x y'
          · rw [if_pos hxy'] at hz
            simp only [List.head?_cons, Option.mem_def, Option.some.injEq] at hz
            subst hz
            exact hyx
          · rw [if_neg hxy'] at hz
            simp only [List.head?_cons, Option.mem_def, Option.some.injEq] at hz
            subst hz
            exact hhead y' rfl

theorem chain'_sortVals :
    ∀ (l : List RawVal), List.Chain' (fun a b => RawVal.le a b = true) (sortVals l)
  | [] => List.chain'_nil
  | x :: xs => chain'_insertSorted x (sortVals xs) (chain'_sortVals xs)

theorem mem_sortVals {a : RawVal} {l : List RawVal} : a ∈ sortVals l ↔ a ∈ l :=
  (sortVals_perm l).mem_iff

theorem mem_categories {a : RawVal} {xs : List RawVal} :
    a ∈ categories xs ↔ a ≠ RawVal.null ∧ a ∈ xs := by
  unfold categories
  rw [mem_sortVals, mem_dedupKeepFirst]
  unfold stripNull
  rw [List.mem_filter]
  simp [and_comm]

theorem nodup_categories (xs : List RawVal) : (categories xs).Nodup := by
  unfold categories
  exact ((sortVals_perm _).nodup_iff).mpr (nodup_dedupKeepFirst _)

theorem sorted_categories (xs : List RawVal) :
    List.Chain' (fun a b => RawVal.le a b = true) (categories xs) :=
  chain'_sortVals _

theorem flatten_sliceChunksFuel {α : Type} (cs : Nat) :
    ∀ (fuel : Nat) (l : List α), l.length ≤ fuel →
      (sliceChunksFuel cs fuel l).flatten = l
  | 0, [], _ => rfl
  | 0, _ :: _, h => by simp at h
  | _ + 1, [], _ => rfl
  | fuel + 1, x :: xs, h => by
      simp only [sliceChunksFuel, List.flatten_cons]
      rw [flatten_sliceChunksFuel cs fuel ((x :: xs).drop (max cs 1)) ?_]
      · exact List.take_append_drop _ _
      · simp only [List.length_drop, List.length_cons]
        have h1 : 1 ≤ max cs 1 := Nat.le_max_right cs 1
        simp only [List.length_cons] at h
        omega

/-- Concatenating the chunk slices gives back the whole list: the chunked
loop visits every kupac exactly once, in order. -/
theorem flatten_sliceChunks {α : Type} (cs : Nat) (l : List α) :
    (sliceChunks cs l).flatten = l :=
  flatten_sliceChunksFuel cs l.length l (Nat.le_refl _)

/-- The concatenated chunk frame equals the direct one-row-per-label map:
the chunking is a pure traversal-order artifact. -/
theorem matrix_df_eq_map (cs : Nat) (kupci artikli : List RawVal)
    (pairSet : List (RawVal × RawVal)) :
    matrix_df cs kupci artikli pairSet = kupci.map (buildRow pairSet artikli) := by
  unfold matrix_df all_chunks
  rw [← List.map_flatten, flatten_sliceChunks]

theorem valueCounts_perm (xs : List RawVal) :
    (valueCounts xs).Perm
      ((dedupKeepFirst (stripNull xs)).map
        (fun k => (k, (stripNull xs).count k))) := by
  unfold valueCounts
  exact sortDesc_perm _

theorem valueCounts_sum (xs : List RawVal) :
    ((valueCounts xs).map (fun p => p.2)).sum = (stripNull xs).length := by
  rw [List.Perm.sum_eq (List.Perm.map _ (valueCounts_perm xs))]
  rw [List.map_map]
  exact sum_counts_dedupKeepFirst (stripNull xs)

theorem valueCounts_length (xs : List RawVal) :
    (valueCounts xs).length = (dedupKeepFirst (stripNull xs)).length := by
  rw [(valueCounts_perm xs).length_eq, List.length_map]

theorem mem_valueCounts {p : RawVal × Nat} {xs : List RawVal}
    (h : p ∈ valueCounts xs) : p.2 = (stripNull xs).count p.1 := by
  have hm := (valueCounts_perm xs).mem_iff.mp h
  rcases List.mem_map.mp hm with ⟨k, _, hk⟩
  rw [← hk]

/-- On a duplicate-free pair list, the number of rows carrying the A-label
`k` is exactly the number of distinct B-partners of `k`: rows with the
same first component are distinguished by their second component. -/
theorem count_fst_eq_distinctPartnerCountA (up : List (RawVal × RawVal))
    (hnd : up.Nodup) (k : RawVal) :
    (up.map (fun r => r.1)).count k = distinctPartnerCountA up k := by
  unfold distinctPartnerCountA
  have hF : (up.filter (fun r => decide (r.1 = k))).Nodup := List.Nodup.filter _ hnd
  have hfst : ∀ r ∈ up.filter (fun r => decide (r.1 = k)), r.1 = k := by
    intro r hr
    have := (List.mem_filter.mp hr).2
    simpa using this
  have hmapnd : ((up.filter (fun r => decide (r.1 = k))).map (fun r => r.2)).Nodup := by
    refine List.Nodup.map_on ?_ hF
    intro a ha b hb hab
    have h1 := hfst a ha
    have h2 := hfst b hb
    cases a
    cases b
    simp only [Prod.mk.injEq]
    simp only at h1 h2 hab
    exact ⟨h1.trans h2.symm, hab⟩
  rw [List.dedup_eq_self.mpr hmapnd, List.length_map]
  rw [List.count_eq_countP, List.countP_map, List.countP_eq_length_filter]
  rfl

/-- On a duplicate-free pair list, the number of rows carrying the B-label
`k` is exactly the number of distinct A-partners of `k`. -/
theorem count_snd_eq_distinctPartnerCountB (up : List (RawVal × RawVal))
    (hnd : up.Nodup) (k : RawVal) :
    (up.map (fun r => r.2)).count k = distinctPartnerCountB up k := by
  unfold distinctPartnerCountB
  have hF : (up.filter (fun r => decide (r.2 = k))).Nodup := List.Nodup.filter _ hnd
  have hsnd : ∀ r ∈ up.filter (fun r => decide (r.2 = k)), r.2 = k := by
    intro r hr
    have := (List.mem_filter.mp hr).2
    simpa using this
  have hmapnd : ((up.filter (fun r => decide (r.2 = k))).map (fun r => r.1)).Nodup := by
    refine List.Nodup.map_on ?_ hF
    intro a ha b hb hab
    have h1 := hsnd a ha
    have h2 := hsnd b hb
    cases a
    cases b
    simp only [Prod.mk.injEq]
    simp only at h1 h2 hab
    exact ⟨hab, h1.trans h2.symm⟩
  rw [List.dedup_eq_self.mpr hmapnd, List.length_map]
  rw [List.count_eq_countP, List.countP_map, List.countP_eq_length_filter]
  rfl

/-- When every record is fully non-null, stripping nulls from a projected
column of the deduplicated rows is the identity. -/
theorem stripNull_map_eq_of_valid (df : List (RawVal × RawVal))
    (sel : RawVal × RawVal → RawVal)
    (h : ∀ r ∈ df, sel r ≠ RawVal.null) :
    stripNull ((dedupKeepFirst df).map sel) = (dedupKeepFirst df).map sel := by
  unfold stripNull
  rw [List.filter_eq_self]
  intro a ha
  rcases List.mem_map.mp ha with ⟨r, hr, rfl⟩
  have := h r (mem_dedupKeepFirst.mp hr)
  simpa using this

/-! ## Claims -/

/-- C1: the claim states that a record with a null selected field is
excluded before PairSet construction, so the TRUE count, both universes
and the degree counts reflect only fully non-null records.  The source
contradicts it: on records `[("K1","I1"), ("K2", null)]`,
`create_sparse_matrix` keeps the partial record — `unique_pairs` retains
the `("K2", null)` row, the reported TRUE count is 2, and `"K2"` enters
the kupac universe — whereas the cleaned PairSet of the claim holds only
`("K1","I1")`. -/
theorem C1_partial_records_not_dropped :
    (create_sparse_matrix
        [(RawVal.str "K1", RawVal.str "I1"), (RawVal.str "K2", RawVal.null)]).trueCount = 2 ∧
    (create_sparse_matrix
        [(RawVal.str "K1", RawVal.str "I1"), (RawVal.str "K2", RawVal.null)]).kupci
      = [RawVal.str "K1", RawVal.str "K2"] ∧
    (RawVal.str "K2", RawVal.null) ∈
      (create_sparse_matrix
        [(RawVal.str "K1", RawVal.str "I1"), (RawVal.str "K2", RawVal.null)]).uniquePairs ∧
    specPairSet [(RawVal.str "K1", RawVal.str "I1"), (RawVal.str "K2", RawVal.null)]
      = [(RawVal.str "K1", RawVal.str "I1")] := by
  decide

/-- C2 counterexample: the claim states that every input with zero valid
pairs after cleaning raises `EmptyInputError` before any emission and
produces no artifact.  On the records `[("K", null), (null, "I")]` every
record has a missing field — zero valid pairs — yet the source raises
nothing and returns a complete artifact. -/
theorem C2_zero_valid_pairs_no_error :
    ([(RawVal.str "K", RawVal.null), (RawVal.null, RawVal.str "I")].filter specValidRecord
      = []) ∧
    ((generate_excel_chunked
        (create_sparse_matrix [(RawVal.str "K", RawVal.null), (RawVal.null, RawVal.str "I")])
        "Kupac" "Artikl" 2 "t" 500).toOption.isSome = true) := by
  constructor
  · decide
  · rw [show create_sparse_matrix
        [(RawVal.str "K", RawVal.null), (RawVal.null, RawVal.str "I")] =
      { kupci := [RawVal.str "K"], artikli := [RawVal.str "I"],
        kupacToIdx := [(RawVal.str "K", 0)], artiklToIdx := [(RawVal.str "I", 0)],
        uniquePairs := [(RawVal.str "K", RawVal.null), (RawVal.null, RawVal.str "I")],
        numKupaca := 1, numArtikala := 1, trueCount := 2 } from by decide]
    simp only [generate_excel_chunked]
    norm_num [Except.toOption]

/-- C2 amended: no `EmptyInputError` exists in the source.  What the code
does: whenever the universe product is zero — in particular on the empty
record sequence, where both universes are empty — composing the summary
divides by `total_celija = 0` and raises `ZeroDivisionError` before any
sheet is emitted, so no artifact is produced; while an input with zero
valid pairs but two non-empty universes (see the counterexample) silently
produces an artifact. -/
theorem C2_amended_zero_total_raises (df : List (RawVal × RawVal))
    (kc ac : String) (dfLen : Nat) (now : String) (cs : Nat)
    (h : (create_sparse_matrix df).numKupaca * (create_sparse_matrix df).numArtikala = 0) :
    generate_excel_chunked (create_sparse_matrix df) kc ac dfLen now cs
      = Except.error PyErr.zeroDivision := by
  simp only [generate_excel_chunked]
  rw [if_pos h]

/-- Witness for C2 amended: the empty record sequence reaches the
zero-division branch. -/
theorem C2_amended_zero_total_raises_witness :
    (create_sparse_matrix []).numKupaca * (create_sparse_matrix []).numArtikala = 0 ∧
    generate_excel_chunked (create_sparse_matrix []) "Kupac" "Artikl" 0 "t" 500
      = Except.error PyErr.zeroDivision :=
  ⟨by decide, C2_amended_zero_total_raises [] "Kupac" "Artikl" 0 "t" 500 (by decide)⟩

/-- C3 counterexample: the claim states that a numeric identifier and its
string form are normalized to one canonical label, so the scenario-3
records `[("1001","A"), (1001,"A")]` contribute one PairSet entry.  The
source performs no normalization: both records survive `drop_duplicates`
and the pair count is 2, not 1. -/
theorem C3_mixed_representations_not_collapsed :
    (create_sparse_matrix
        [(RawVal.str "1001", RawVal.str "A"), (RawVal.int 1001, RawVal.str "A")]).trueCount
      = 2 ∧
    ¬ (create_sparse_matrix
        [(RawVal.str "1001", RawVal.str "A"), (RawVal.int 1001, RawVal.str "A")]).trueCount
      = 1 := by
  decide

/-- C3 amended: the source keeps numeric and string representations as
distinct labels — for any string `s`, integer `n` and partner `b`, the two
records `(str s, b)` and `(int n, b)` are never collapsed: the pair count
is 2 and the kupac universe holds the two distinct labels, the integer
first (pandas mixed-type sort order). -/
theorem C3_amended_labels_stay_distinct (s : String) (n : Int) (b : RawVal) :
    (create_sparse_matrix [(RawVal.str s, b), (RawVal.int n, b)]).trueCount = 2 ∧
    (create_sparse_matrix [(RawVal.str s, b), (RawVal.int n, b)]).numKupaca = 2 ∧
    (create_sparse_matrix [(RawVal.str s, b), (RawVal.int n, b)]).kupci
      = [RawVal.int n, RawVal.str s] := by
  refine ⟨?_, ?_, ?_⟩ <;>
    simp [create_sparse_matrix, categories, dedupKeepFirst, stripNull,
      sortVals, insertSorted, RawVal.le]

/-- C9: the claim states the full universeA×universeB matrix is never
materialized as one in-memory structure.  The source contradicts its own
docstring here: `all_chunks` accumulates every built chunk and
`pd.concat` materializes the complete matrix as `matrix_df` before a
single matrix row is written — for every input, `matrix_df` holds exactly
one row per kupac label and every row carries one boolean per artikl
label, i.e. the whole `num_kupaca × num_artikala` matrix at once. -/
theorem C9_full_matrix_materialized (cs : Nat) (kupci artikli : List RawVal)
    (pairSet : List (RawVal × RawVal)) :
    (matrix_df cs kupci artikli pairSet).map (fun r => r.2.length)
      = List.replicate kupci.length artikli.length := by
  rw [matrix_df_eq_map, List.map_map]
  have hconst : ((fun r : RawVal × List Bool => r.2.length) ∘ buildRow pairSet artikli)
      = fun _ => artikli.length := by
    funext k
    simp [buildRow]
  rw [hconst]
  exact List.map_const' kupci artikli.length

/-- C10: neither engine function mutates its input: threading the input
frame (resp. the sparse-data dictionary) through every pandas call the
source applies to it returns the state unchanged, and the results agree
with the direct embedding — both functions are pure readers of their
inputs, computing fresh outputs. -/
theorem C10_no_input_mutation (df : List (RawVal × RawVal)) (sparse : SparseData)
    (kc ac : String) (dfLen : Nat) (now : String) (cs : Nat) :
    (create_sparse_matrix_st df).1 = df ∧
    (create_sparse_matrix_st df).2 = create_sparse_matrix df ∧
    (generate_excel_chunked_st sparse kc ac dfLen now cs).1 = sparse ∧
    (generate_excel_chunked_st sparse kc ac dfLen now cs).2
      = generate_excel_chunked sparse kc ac dfLen now cs := by
  refine ⟨rfl, rfl, ?_, ?_⟩
  · unfold generate_excel_chunked_st
    dsimp only
    split <;> rfl
  · unfold generate_excel_chunked_st generate_excel_chunked
    dsimp only
    split <;> rfl

/-- C4 counterexample: the claim states the Matrix table has exactly one
data row per label of universeA, the sorted distinct projection of
PairSet's first components.  On records `[("K1","I1"), ("K2", null)]` the
cleaned PairSet projects to the single label `"K1"`, yet the source emits
two data rows, because it builds its universes from the raw column (the
partial record's `"K2"` included), not from the PairSet projection. -/
theorem C4_universe_not_pairset_projection :
    (specUniverseA (specPairSet
        [(RawVal.str "K1", RawVal.str "I1"), (RawVal.str "K2", RawVal.null)])).length = 1 ∧
    ((generate_excel_chunked
        (create_sparse_matrix
          [(RawVal.str "K1", RawVal.str "I1"), (RawVal.str "K2", RawVal.null)])
        "Kupac" "Artikl" 2 "t" 500).toOption.map (fun o => o.matrixRows.length))
      = some 2 ∧
    (2 : Nat) ≠ 1 := by
  refine ⟨by decide, ?_, by decide⟩
  rw [show create_sparse_matrix
      [(RawVal.str "K1", RawVal.str "I1"), (RawVal.str "K2", RawVal.null)] =
    { kupci := [RawVal.str "K1", RawVal.str "K2"], artikli := [RawVal.str "I1"],
      kupacToIdx := [(RawVal.str "K1", 0), (RawVal.str "K2", 1)],
      artiklToIdx := [(RawVal.str "I1", 0)],
      uniquePairs := [(RawVal.str "K1", RawVal.str "I1"), (RawVal.str "K2", RawVal.null)],
      numKupaca := 2, numArtikala := 1, trueCount := 2 } from by decide]
  simp only [generate_excel_chunked]
  norm_num [Except.toOption]
  all_goals decide

/-- C4 amended: whenever the universe product is non-zero (so the summary
division does not raise), the emitted Matrica sheet is the header — the
entity-A field name followed by the artikl universe — and exactly one row
per kupac universe label, in universe order, each cell `(k, a)` true iff
`(k, a)` is among the deduplicated pair rows; and the two universes are
duplicate-free, sorted by the category order, and consist of the distinct
NON-NULL values of the respective raw input column (not of the PairSet
projections). -/
theorem C4_amended_matrix_layout (df : List (RawVal × RawVal)) (kc ac : String)
    (dfLen : Nat) (now : String) (cs : Nat)
    (h : ¬ (create_sparse_matrix df).numKupaca * (create_sparse_matrix df).numArtikala = 0) :
    ((generate_excel_chunked (create_sparse_matrix df) kc ac dfLen now cs).toOption.map
        (fun o => (o.matHeaderName, o.matHeaderCols, o.matrixRows)))
      = some (kc, (create_sparse_matrix df).artikli,
          (create_sparse_matrix df).kupci.map (fun k =>
            (k, (create_sparse_matrix df).artikli.map
              (fun a => decide ((k, a) ∈ (create_sparse_matrix df).uniquePairs))))) ∧
    (create_sparse_matrix df).kupci.Nodup ∧
    (create_sparse_matrix df).artikli.Nodup ∧
    List.Chain' (fun a b => RawVal.le a b = true) (create_sparse_matrix df).kupci ∧
    List.Chain' (fun a b => RawVal.le a b = true) (create_sparse_matrix df).artikli ∧
    (create_sparse_matrix df).kupci.toFinset
      = (stripNull (df.map (fun r => r.1))).toFinset ∧
    (create_sparse_matrix df).artikli.toFinset
      = (stripNull (df.map (fun r => r.2))).toFinset := by
  refine ⟨?_, ?_, ?_, ?_, ?_, ?_, ?_⟩
  · simp only [generate_excel_chunked]
    rw [if_neg h]
    simp only [Except.toOption, Option.map_some', Option.some.injEq]
    rw [matrix_df_eq_map]
    rfl
  · exact nodup_categories _
  · exact nodup_categories _
  · exact sorted_categories _
  · exact sorted_categories _
  · ext a
    simp only [create_sparse_matrix, List.mem_toFinset]
    rw [mem_categories]
    unfold stripNull
    rw [List.mem_filter]
    simp [and_comm]
  · ext a
    simp only [create_sparse_matrix, List.mem_toFinset]
    rw [mem_categories]
    unfold stripNull
    rw [List.mem_filter]
    simp [and_comm]

/-- Witness for C4 amended, at the single record `("C","I")`. -/
theorem C4_amended_matrix_layout_witness :
    ((generate_excel_chunked (create_sparse_matrix [(RawVal.str "C", RawVal.str "I")])
        "Kupac" "Artikl" 1 "t" 500).toOption.map
        (fun o => (o.matHeaderName, o.matHeaderCols, o.matrixRows)))
      = some ("Kupac", (create_sparse_matrix [(RawVal.str "C", RawVal.str "I")]).artikli,
          (create_sparse_matrix [(RawVal.str "C", RawVal.str "I")]).kupci.map (fun k =>
            (k, (create_sparse_matrix [(RawVal.str "C", RawVal.str "I")]).artikli.map
              (fun a => decide ((k, a) ∈
                (create_sparse_matrix [(RawVal.str "C", RawVal.str "I")]).uniquePairs))))) ∧
    (create_sparse_matrix [(RawVal.str "C", RawVal.str "I")]).kupci.Nodup ∧
    (create_sparse_matrix [(RawVal.str "C", RawVal.str "I")]).artikli.Nodup ∧
    List.Chain' (fun a b => RawVal.le a b = true)
      (create_sparse_matrix [(RawVal.str "C", RawVal.str "I")]).kupci ∧
    List.Chain' (fun a b => RawVal.le a b = true)
      (create_sparse_matrix [(RawVal.str "C", RawVal.str "I")]).artikli ∧
    (create_sparse_matrix [(RawVal.str "C", RawVal.str "I")]).kupci.toFinset
      = (stripNull ([(RawVal.str "C", RawVal.str "I")].map (fun r => r.1))).toFinset ∧
    (create_sparse_matrix [(RawVal.str "C", RawVal.str "I")]).artikli.toFinset
      = (stripNull ([(RawVal.str "C", RawVal.str "I")].map (fun r => r.2))).toFinset :=
  C4_amended_matrix_layout [(RawVal.str "C", RawVal.str "I")] "Kupac" "Artikl" 1 "t" 500
    (by decide)

/-- C5: the claim states the number of true cells of the emitted matrix
equals |PairSet| and the reported TRUE count.  The source contradicts it:
on records `[("K1","I1"), ("K1", null)]` the emitted matrix holds exactly
1 true cell while the summary reports a TRUE count of 2 (the partial
record is retained in `unique_pairs` and counted). -/
theorem C5_true_count_not_conserved :
    ((generate_excel_chunked
        (create_sparse_matrix
          [(RawVal.str "K1", RawVal.str "I1"), (RawVal.str "K1", RawVal.null)])
        "Kupac" "Artikl" 2 "t" 500).toOption.map
        (fun o => (countTrue o.matrixRows, o.summary.trueCount)))
      = some (1, 2) ∧
    (1 : Nat) ≠ 2 := by
  refine ⟨?_, by decide⟩
  rw [show create_sparse_matrix
      [(RawVal.str "K1", RawVal.str "I1"), (RawVal.str "K1", RawVal.null)] =
    { kupci := [RawVal.str "K1"], artikli := [RawVal.str "I1"],
      kupacToIdx := [(RawVal.str "K1", 0)], artiklToIdx := [(RawVal.str "I1", 0)],
      uniquePairs := [(RawVal.str "K1", RawVal.str "I1"), (RawVal.str "K1", RawVal.null)],
      numKupaca := 1, numArtikala := 1, trueCount := 2 } from by decide]
  simp only [generate_excel_chunked]
  norm_num [Except.toOption]
  all_goals decide

/-- C6 counterexample: the claim states the A-side degree sum, the B-side
degree sum and |PairSet| always agree.  On records
`[("K1","I1"), ("K1", null)]` the returned count series sum to 2 on the
A side but 1 on the B side (`value_counts` drops the null key while the
partial row still counts for `"K1"`). -/
theorem C6_degree_sums_differ :
    ((generate_excel_chunked
        (create_sparse_matrix
          [(RawVal.str "K1", RawVal.str "I1"), (RawVal.str "K1", RawVal.null)])
        "Kupac" "Artikl" 2 "t" 500).toOption.map
        (fun o => ((o.kupciCounts.map (fun p => p.2)).sum,
                   (o.artikliCounts.map (fun p => p.2)).sum)))
      = some (2, 1) ∧
    (2 : Nat) ≠ 1 := by
  refine ⟨?_, by decide⟩
  rw [show create_sparse_matrix
      [(RawVal.str "K1", RawVal.str "I1"), (RawVal.str "K1", RawVal.null)] =
    { kupci := [RawVal.str "K1"], artikli := [RawVal.str "I1"],
      kupacToIdx := [(RawVal.str "K1", 0)], artiklToIdx := [(RawVal.str "I1", 0)],
      uniquePairs := [(RawVal.str "K1", RawVal.str "I1"), (RawVal.str "K1", RawVal.null)],
      numKupaca := 1, numArtikala := 1, trueCount := 2 } from by decide]
  simp only [generate_excel_chunked]
  norm_num [Except.toOption]
  all_goals decide

/-- C6 amended: for every input in which both fields of every record are
non-null, the A-side degree sum, the B-side degree sum and the pair count
(the reported TRUE count) all agree, and every entry of either count
series equals the number of distinct partner labels of its key among the
deduplicated pair rows. -/
theorem C6_amended_degree_sum_invariant (df : List (RawVal × RawVal))
    (h : ∀ r ∈ df, r.1 ≠ RawVal.null ∧ r.2 ≠ RawVal.null) :
    ((valueCounts ((create_sparse_matrix df).uniquePairs.map (fun r => r.1))).map
        (fun p => p.2)).sum = (create_sparse_matrix df).trueCount ∧
    ((valueCounts ((create_sparse_matrix df).uniquePairs.map (fun r => r.2))).map
        (fun p => p.2)).sum = (create_sparse_matrix df).trueCount ∧
    (valueCounts ((create_sparse_matrix df).uniquePairs.map (fun r => r.1))).map
        (fun p => p.2)
      = (valueCounts ((create_sparse_matrix df).uniquePairs.map (fun r => r.1))).map
        (fun p => distinctPartnerCountA (create_sparse_matrix df).uniquePairs p.1) ∧
    (valueCounts ((create_sparse_matrix df).uniquePairs.map (fun r => r.2))).map
        (fun p => p.2)
      = (valueCounts ((create_sparse_matrix df).uniquePairs.map (fun r => r.2))).map
        (fun p => distinctPartnerCountB (create_sparse_matrix df).uniquePairs p.1) := by
  have hup : (create_sparse_matrix df).uniquePairs = dedupKeepFirst df := rfl
  have htc : (create_sparse_matrix df).trueCount = (dedupKeepFirst df).length := rfl
  have hnd : (dedupKeepFirst df).Nodup := nodup_dedupKeepFirst df
  have h1 : ∀ r ∈ df, (fun r : RawVal × RawVal => r.1) r ≠ RawVal.null :=
    fun r hr => (h r hr).1
  have h2 : ∀ r ∈ df, (fun r : RawVal × RawVal => r.2) r ≠ RawVal.null :=
    fun r hr => (h r hr).2
  refine ⟨?_, ?_, ?_, ?_⟩
  · rw [hup, htc, valueCounts_sum, stripNull_map_eq_of_valid df _ h1, List.length_map]
  · rw [hup, htc, valueCounts_sum, stripNull_map_eq_of_valid df _ h2, List.length_map]
  · rw [hup]
    refine List.map_congr_left ?_
    intro p hp
    rw [mem_valueCounts hp, stripNull_map_eq_of_valid df _ h1]
    exact count_fst_eq_distinctPartnerCountA _ hnd _
  · rw [hup]
    refine List.map_congr_left ?_
    intro p hp
    rw [mem_valueCounts hp, stripNull_map_eq_of_valid df _ h2]
    exact count_snd_eq_distinctPartnerCountB _ hnd _

/-- Witness for C6 amended, at the records `[("K","I"), ("K","J")]`. -/
theorem C6_amended_degree_sum_invariant_witness :
    (∀ r ∈ [(RawVal.str "K", RawVal.str "I"), (RawVal.str "K", RawVal.str "J")],
      r.1 ≠ RawVal.null ∧ r.2 ≠ RawVal.null) ∧
    ((valueCounts ((create_sparse_matrix
        [(RawVal.str "K", RawVal.str "I"), (RawVal.str "K", RawVal.str "J")]).uniquePairs.map
          (fun r => r.1))).map (fun p => p.2)).sum
      = (create_sparse_matrix
          [(RawVal.str "K", RawVal.str "I"), (RawVal.str "K", RawVal.str "J")]).trueCount :=
  ⟨by decide,
    (C6_amended_degree_sum_invariant
      [(RawVal.str "K", RawVal.str "I"), (RawVal.str "K", RawVal.str "J")]
      (by decide)).1⟩

/-- C7 counterexample: the claim states the top-10 rankings break degree
ties by ascending canonical label.  On records `[("B","x"), ("A","y")]`
both kupac labels have degree 1, yet the source returns `"B"` before
`"A"` (first-appearance order of `value_counts`; no secondary label key
is applied), violating the spec-side tie order. -/
theorem C7_ties_not_label_ordered :
    ((generate_excel_chunked
        (create_sparse_matrix [(RawVal.str "B", RawVal.str "x"), (RawVal.str "A", RawVal.str "y")])
        "Kupac" "Artikl" 2 "t" 500).toOption.map (fun o => o.topKupci))
      = some [(RawVal.str "B", 1), (RawVal.str "A", 1)] ∧
    ¬ specRankLe (RawVal.str "B", 1) (RawVal.str "A", 1) := by
  refine ⟨?_, by decide⟩
  rw [show create_sparse_matrix
      [(RawVal.str "B", RawVal.str "x"), (RawVal.str "A", RawVal.str "y")] =
    { kupci := [RawVal.str "A", RawVal.str "B"], artikli := [RawVal.str "x", RawVal.str "y"],
      kupacToIdx := [(RawVal.str "A", 0), (RawVal.str "B", 1)],
      artiklToIdx := [(RawVal.str "x", 0), (RawVal.str "y", 1)],
      uniquePairs := [(RawVal.str "B", RawVal.str "x"), (RawVal.str "A", RawVal.str "y")],
      numKupaca := 2, numArtikala := 2, trueCount := 2 } from by decide]
  simp only [generate_excel_chunked]
  norm_num [Except.toOption]
  all_goals decide

/-- C7 amended: each ranking (the source computes both as
`value_counts().head(10)`, i.e. `(valueCounts column).take 10`) is ordered
by degree descending and truncated to at most 10 entries — exactly
`min 10 (number of distinct non-null labels)` — but equal-degree entries
keep the count series' order rather than ascending label order. -/
theorem C7_amended_ranking_sorted_truncated (xs : List RawVal) :
    List.Chain' (fun p q : RawVal × Nat => q.2 ≤ p.2) ((valueCounts xs).take 10) ∧
    ((valueCounts xs).take 10).length
      = min 10 (dedupKeepFirst (stripNull xs)).length := by
  constructor
  · exact List.Chain'.take (chain'_sortDesc _) 10
  · rw [List.length_take, valueCounts_length]

/-- C8: the claim states the fill ratio always lies in [0, 100].  The
source contradicts it: on records `[("K1","I1"), ("K1", null)]` the
summary reports a fill of 200% and a FALSE count of −1, because the
retained partial record inflates the TRUE count beyond the 1-cell
matrix. -/
theorem C8_fill_ratio_exceeds_bound :
    ((generate_excel_chunked
        (create_sparse_matrix
          [(RawVal.str "K1", RawVal.str "I1"), (RawVal.str "K1", RawVal.null)])
        "Kupac" "Artikl" 2 "t" 500).toOption.map
        (fun o => (o.summary.fillPct, o.summary.falseCount)))
      = some (200, -1) ∧
    ¬ ((200 : ℚ) ≤ 100) := by
  refine ⟨?_, by norm_num⟩
  rw [show create_sparse_matrix
      [(RawVal.str "K1", RawVal.str "I1"), (RawVal.str "K1", RawVal.null)] =
    { kupci := [RawVal.str "K1"], artikli := [RawVal.str "I1"],
      kupacToIdx := [(RawVal.str "K1", 0)], artiklToIdx := [(RawVal.str "I1", 0)],
      uniquePairs := [(RawVal.str "K1", RawVal.str "I1"), (RawVal.str "K1", RawVal.null)],
      numKupaca := 1, numArtikala := 1, trueCount := 2 } from by decide]
  simp only [generate_excel_chunked]
  norm_num [Except.toOption]

end KupacArtikl
